import Mathlib

/-!
# Verification of the mogwai FactoredAttention model

A shallow embedding of `mogwai/models/factored_attention.py` over the reals.
Tensors become functions out of `Fin`-indexed types, the module's registered
parameters and buffers become fields of a structure, and fallible library
calls (embedding lookups with out-of-range indices, optimizer construction
with an unrecognized name, bias initialization with a badly shaped counts
table) become `Except` values.
-/

namespace Mogwai

noncomputable section

/-- `tensor.softmax(-1)` on one row: `exp (x j) / Σ k, exp (x k)`. -/
def softmax {n : ℕ} (x : Fin n → ℝ) : Fin n → ℝ :=
  fun j => Real.exp (x j) / ∑ k, Real.exp (x k)

/-- One sequence of `L` integer-encoded tokens. -/
def Tokens (L : ℕ) : Type := Fin L → ℕ

/-- Every token of the sequence is a legal row index of the
`nn.Embedding(vocab_size + 1, ...)` table. -/
def validSeq (V : ℕ) {L : ℕ} (s : Tokens L) : Prop := ∀ i, s i < V + 1

instance (V : ℕ) {L : ℕ} (s : Tokens L) : Decidable (validSeq V s) :=
  inferInstanceAs (Decidable (∀ i, s i < V + 1))

/-- Every sequence of the batch is embeddable. -/
def validBatch (V : ℕ) {L : ℕ} (src : List (Tokens L)) : Prop :=
  ∀ s ∈ src, validSeq V s

instance (V : ℕ) {L : ℕ} (src : List (Tokens L)) : Decidable (validBatch V src) :=
  inferInstanceAs (Decidable (∀ s ∈ src, validSeq V s))

/-- Every target token is either the ignored pad index or a legal class index
for `nn.CrossEntropyLoss`. -/
def validTargets (pad V : ℕ) {L : ℕ} (tgt : List (Tokens L)) : Prop :=
  ∀ t ∈ tgt, ∀ i, t i = pad ∨ t i < V

instance (pad V : ℕ) {L : ℕ} (tgt : List (Tokens L)) :
    Decidable (validTargets pad V tgt) :=
  inferInstanceAs (Decidable (∀ t ∈ tgt, ∀ i, t i = pad ∨ t i < V))

/-- Row-major index of head `h`, dim `d` into the flattened `H * D` hidden axis
(the `.view` / `.reshape` index arithmetic). -/
def flatIdx {H D : ℕ} (h : Fin H) (d : Fin D) : Fin (H * D) :=
  ⟨(h : ℕ) * D + d, by
    have hh := h.isLt
    have hd := d.isLt
    calc (h : ℕ) * D + d < (h : ℕ) * D + D := by omega
    _ = ((h : ℕ) + 1) * D := by ring
    _ ≤ H * D := Nat.mul_le_mul_right D hh⟩

/-- Head component of a flattened hidden index. -/
def unflatH {H D : ℕ} (k : Fin (H * D)) : Fin H :=
  ⟨(k : ℕ) / D, by
    have hk := k.isLt
    have hHD : 0 < H * D := lt_of_le_of_lt (Nat.zero_le _) hk
    have hD : 0 < D := Nat.pos_of_ne_zero (fun h0 => by simp [h0] at hHD)
    exact (Nat.div_lt_iff_lt_mul hD).mpr hk⟩

/-- Per-head-dim component of a flattened hidden index. -/
def unflatD {H D : ℕ} (k : Fin (H * D)) : Fin D :=
  ⟨(k : ℕ) % D, by
    have hk := k.isLt
    have hHD : 0 < H * D := lt_of_le_of_lt (Nat.zero_le _) hk
    have hD : 0 < D := Nat.pos_of_ne_zero (fun h0 => by simp [h0] at hHD)
    exact Nat.mod_lt _ hD⟩

/-- The registered parameters, buffers and stored configuration of a
`FactoredAttention` module with `msa_length = L`, `num_attention_heads = H`,
`attention_head_size = D`, `vocab_size = V`.  The optional single-site bias is
registered only when `use_bias` was set, so it is an `Option` field. -/
structure FactoredAttention (L H D V : ℕ) : Type where
  query : Fin L → Fin H → Fin D → ℝ
  key : Fin L → Fin H → Fin D → ℝ
  value : Fin (V + 1) → Fin (H * D) → ℝ
  output : Fin V → Fin (H * D) → ℝ
  bias : Option (Fin L → Fin V → ℝ)
  diag_mask : Fin L → Fin L → ℝ
  optimizer : String
  learning_rate : ℝ
  l2_coeff : ℝ
  pad_idx : ℕ
  num_seqs : ℕ

/-- The fixed buffer `torch.eye(msa_length) * -10000`. -/
def mkDiagMask (L : ℕ) : Fin L → Fin L → ℝ :=
  fun i j => (if i = j then (1 : ℝ) else 0) * (-10000)

/-- `torch.einsum("ihd,jhd->hij", self.query, self.key)`. -/
def rawAttn {L H D V : ℕ} (m : FactoredAttention L H D V) :
    Fin H → Fin L → Fin L → ℝ :=
  fun h i j => ∑ d, m.query i h d * m.key j h d

/-- The einsum scores divided by `math.sqrt(self.attention_head_size)`. -/
def scaledAttn {L H D V : ℕ} (m : FactoredAttention L H D V) :
    Fin H → Fin L → Fin L → ℝ :=
  fun h i j => rawAttn m h i j / Real.sqrt (D : ℝ)

/-- Scaled scores plus the broadcast `diag_mask` buffer. -/
def maskedAttn {L H D V : ℕ} (m : FactoredAttention L H D V) :
    Fin H → Fin L → Fin L → ℝ :=
  fun h i j => scaledAttn m h i j + m.diag_mask i j

/-- `attention.softmax(-1)`: the attention tensor `forward` returns.  It is
built from `query`, `key` and `diag_mask` alone, before any batch data is
touched. -/
def attn {L H D V : ℕ} (m : FactoredAttention L H D V) :
    Fin H → Fin L → Fin L → ℝ :=
  fun h i => softmax (fun j => maskedAttn m h i j)

/-- Logits of one batch element: value-embed its tokens, view as `(L, H, D)`,
contract with the attention tensor (`einsum "hij,njhd->nihd"`), reshape heads
back to `H * D`, apply the bias-free output projection, and add the single-site
bias when it is registered. -/
def seqLogits {L H D V : ℕ} (m : FactoredAttention L H D V)
    (s : Tokens L) (hs : validSeq V s) : Fin L → Fin V → ℝ :=
  fun i v =>
    let vals : Fin L → Fin (H * D) → ℝ := fun j => m.value ⟨s j, hs j⟩
    let context : Fin H → Fin D → ℝ :=
      fun h d => ∑ j, attn m h i j * vals j (flatIdx h d)
    let contextFlat : Fin (H * D) → ℝ := fun k => context (unflatH k) (unflatD k)
    let base := ∑ k, m.output v k * contextFlat k
    match m.bias with
    | some b => base + b i v
    | none => base

/-- One summand of `nn.CrossEntropyLoss(ignore_index=pad, reduction="sum")`:
zero at the ignored pad index, otherwise the negative log-softmax probability
of the target class. -/
def ceTerm (pad V : ℕ) (l : Fin V → ℝ) (t : ℕ) : ℝ :=
  if t = pad then 0
  else if h : t < V then -Real.log (softmax l ⟨t, h⟩) else 0

/-- Cross-entropy of one logit row against one class index. -/
def crossEntropy {V : ℕ} (l : Fin V → ℝ) (t : Fin V) : ℝ :=
  -Real.log (softmax l t)

/-- The summed cross-entropy over the flattened `(batch * L)` axis. -/
def ceSum (pad V : ℕ) {L : ℕ} (logits : List (Fin L → Fin V → ℝ))
    (tgt : List (Tokens L)) : ℝ :=
  ((logits.zip tgt).map (fun p => ∑ i, ceTerm pad V (p.1 i) (p.2 i))).sum

/-- What `forward` returns: the loss (present only when targets were given),
the per-sequence logits, and the attention tensor. -/
structure ForwardOut (L H V : ℕ) : Type where
  loss : Option ℝ
  logits : List (Fin L → Fin V → ℝ)
  attention : Fin H → Fin L → Fin L → ℝ

/-- `FactoredAttention.forward`.  An out-of-range token raises inside
`nn.Embedding`, and an out-of-range non-pad target raises inside
`nn.CrossEntropyLoss`; both surface as `Except.error`.  The loss is the summed
cross-entropy divided by `batch_size = src.length`. -/
def forward {L H D V : ℕ} (m : FactoredAttention L H D V)
    (src : List (Tokens L)) (targets : Option (List (Tokens L))) :
    Except String (ForwardOut L H V) :=
  if hv : validBatch V src then
    let logits := src.pmap (fun s hs => seqLogits m s hs) hv
    match targets with
    | none => Except.ok ⟨none, logits, attn m⟩
    | some tgt =>
      if tgt.length = src.length ∧ validTargets m.pad_idx V tgt then
        Except.ok
          ⟨some (ceSum m.pad_idx V logits tgt / (src.length : ℝ)), logits, attn m⟩
      else Except.error "invalid targets"
  else Except.error "embedding index out of range"

/-- Modelled from the spec: `symmetrize_matrix_` lives in `mogwai.utils`, which
is not in the source tree; spec section 4.3 describes it as symmetrizing by
averaging the matrix with its own transpose. -/
def symmetrize_matrix {L : ℕ} (A : Fin L → Fin L → ℝ) : Fin L → Fin L → ℝ :=
  fun i j => (A i j + A j i) / 2

/-- `FactoredAttention.get_contacts`: forward an all-pad batch of one sequence,
take the attention tensor, average it over heads (`attention.mean(0)`), and
symmetrize. -/
def get_contacts {L H D V : ℕ} (m : FactoredAttention L H D V) :
    Except String (Fin L → Fin L → ℝ) :=
  (forward m [fun _ => m.pad_idx] none).map
    (fun out => symmetrize_matrix (fun i j => (∑ h, out.attention h i j) / (H : ℝ)))

/-- State-passing form of `get_contacts`: a PyTorch module call may in general
mutate the module's registered parameters and buffers, so the embedding of a
method returns the module state it leaves behind next to its result.
`get_contacts` only reads the state. -/
def get_contactsS {L H D V : ℕ} (m : FactoredAttention L H D V) :
    Except String (Fin L → Fin L → ℝ) × FactoredAttention L H D V :=
  (get_contacts m, m)

/-- The two optimizer objects `configure_optimizers` can build, with the
hyperparameters they were handed. -/
inductive Optimizer : Type where
  | adamW (lr : ℝ) (weight_decay : ℝ)
  | fusedLAMB (lr : ℝ) (weight_decay : ℝ)

/-- `FactoredAttention.configure_optimizers`: dispatch on the stored optimizer
string, raising `ValueError` on anything but "adam" or "lamb". -/
def configure_optimizers {L H D V : ℕ} (m : FactoredAttention L H D V) :
    Except String (List Optimizer) :=
  if m.optimizer = "adam" then
    Except.ok [Optimizer.adamW m.learning_rate m.l2_coeff]
  else if m.optimizer = "lamb" then
    Except.ok [Optimizer.fusedLAMB m.learning_rate m.l2_coeff]
  else Except.error ("Unrecognized optimizer " ++ m.optimizer)

/-- Modelled from the spec: `init_potts_bias` lives in `mogwai.utils.init`,
which is not in the source tree.  Spec section 4.1: a counts table that is not
`L × vocab_size` raises a shape-mismatch error; otherwise add a pseudo-count
proportional to the regularization coefficient, normalize counts to
frequencies, and take a log transform. -/
def init_potts_bias (L V : ℕ) (msa_counts : List (List ℝ))
    (l2_coeff : ℝ) (num_seqs : ℕ) : Except String (Fin L → Fin V → ℝ) :=
  if msa_counts.length = L ∧ ∀ row ∈ msa_counts, row.length = V then
    Except.ok (fun i a =>
      Real.log ((((msa_counts.getD i []).getD a 0) + l2_coeff) /
        ((num_seqs : ℝ) + (V : ℝ) * l2_coeff)))
  else Except.error "msa_counts shape mismatch"

/-- The raw random draws consumed by the constructor (`torch.randn` for query
and key, the `nn.Embedding` and `nn.Linear` weight initializers). -/
structure InitDraws (L H D V : ℕ) : Type where
  query0 : Fin L → Fin H → Fin D → ℝ
  key0 : Fin L → Fin H → Fin D → ℝ
  value0 : Fin (V + 1) → Fin (H * D) → ℝ
  output0 : Fin V → Fin (H * D) → ℝ

/-- The bias-free module state the constructor assembles: query/key draws
scaled by `0.01`, the `padding_idx` row of the embedding table zeroed, the
`-10000` diagonal mask buffer registered, no bias field. -/
def initBase {L H D V : ℕ} (draws : InitDraws L H D V) (num_seqs : ℕ)
    (optimizer : String) (learning_rate l2_coeff : ℝ) (pad_idx : ℕ) :
    FactoredAttention L H D V :=
  { query := fun i h d => 0.01 * draws.query0 i h d
    key := fun i h d => 0.01 * draws.key0 i h d
    value := fun r k => if (r : ℕ) = pad_idx then 0 else draws.value0 r k
    output := draws.output0
    bias := none
    diag_mask := mkDiagMask L
    optimizer := optimizer
    learning_rate := learning_rate
    l2_coeff := l2_coeff
    pad_idx := pad_idx
    num_seqs := num_seqs }

/-- `FactoredAttention.__init__`: `nn.Embedding(vocab_size + 1, hidden,
padding_idx=pad_idx)` asserts `padding_idx < num_embeddings` before anything
else the constructor can fail at, so a pad index outside the table is an
error; otherwise assemble `initBase` and, only when `use_bias` is set, run
`init_potts_bias` on the counts table and register the result. -/
def FactoredAttention.init (L H D V : ℕ) (draws : InitDraws L H D V)
    (num_seqs : ℕ) (msa_counts : List (List ℝ)) (optimizer : String)
    (learning_rate l2_coeff : ℝ) (use_bias : Bool) (pad_idx : ℕ) :
    Except String (FactoredAttention L H D V) :=
  if pad_idx < V + 1 then
    let base : FactoredAttention L H D V :=
      initBase draws num_seqs optimizer learning_rate l2_coeff pad_idx
    if use_bias then
      match init_potts_bias L V msa_counts l2_coeff num_seqs with
      | Except.ok b => Except.ok { base with bias := some b }
      | Except.error e => Except.error e
    else Except.ok base
  else Except.error "padding_idx must be within num_embeddings"

/-- A default value an argparse action can install in the namespace.  The two
float defaults of `add_args` are exact decimal literals, kept as rationals. -/
inductive ArgDefault : Type where
  | floatD (x : ℚ)
  | natD (n : ℕ)
  | boolD (b : Bool)
  | strD (s : String)
deriving DecidableEq

/-- The action kinds `add_args` uses.  Per the argparse library, a
`store_true` action whose registration gives no explicit default carries
default `False`, and a `store_false` action carries default `True`. -/
inductive ArgKind : Type where
  | store
  | storeTrue
  | storeFalse
deriving DecidableEq

/-- One registered argparse action: its flag, destination attribute, kind,
default, and optional choices list. -/
structure ArgAction : Type where
  flag : String
  dest : String
  kind : ArgKind
  default : ArgDefault
  choices : Option (List String)
deriving DecidableEq

/-- `FactoredAttention.add_args`: the seven actions it registers, in
registration order, with the defaults the argparse library attaches to them.
`--use_bias` is `store_true` with no explicit default, hence default `False`;
`--no_bias` is `store_false` into the same `use_bias` destination, hence
default `True`. -/
def add_args : List ArgAction :=
  [ { flag := "--learning_rate", dest := "learning_rate", kind := ArgKind.store,
      default := ArgDefault.floatD 0.001, choices := none },
    { flag := "--l2_coeff", dest := "l2_coeff", kind := ArgKind.store,
      default := ArgDefault.floatD 0.01, choices := none },
    { flag := "--use_bias", dest := "use_bias", kind := ArgKind.storeTrue,
      default := ArgDefault.boolD false, choices := none },
    { flag := "--no_bias", dest := "use_bias", kind := ArgKind.storeFalse,
      default := ArgDefault.boolD true, choices := none },
    { flag := "--num_attention_heads", dest := "num_attention_heads",
      kind := ArgKind.store, default := ArgDefault.natD 32, choices := none },
    { flag := "--attention_head_size", dest := "attention_head_size",
      kind := ArgKind.store, default := ArgDefault.natD 16, choices := none },
    { flag := "--optimizer", dest := "optimizer", kind := ArgKind.store,
      default := ArgDefault.strD "adam", choices := some ["adam", "lamb"] } ]

/-- Argparse default resolution for a command line that passes none of these
flags: walk the actions in registration order and set each destination that is
not yet present in the namespace to that action's default.  The first
registered action owning a destination therefore wins. -/
def parseDefaults (actions : List ArgAction) : List (String × ArgDefault) :=
  actions.foldl
    (fun ns a =>
      if ns.any (fun p => p.1 = a.dest) then ns else ns ++ [(a.dest, a.default)])
    []

/-- Read one attribute of the parsed namespace. -/
def lookupDest (ns : List (String × ArgDefault)) (d : String) : Option ArgDefault :=
  (ns.find? (fun p => p.1 = d)).map (fun p => p.2)

/-- A tiny concrete module used to instantiate the theorems: `L = 2`, `H = 1`,
`D = 1`, `V = 1`, all parameters zero, no bias, pad index `1`. -/
def m0 : FactoredAttention 2 1 1 1 :=
  { query := fun _ _ _ => 0
    key := fun _ _ _ => 0
    value := fun _ _ => 0
    output := fun _ _ => 0
    bias := none
    diag_mask := mkDiagMask 2
    optimizer := "adam"
    learning_rate := 0.001
    l2_coeff := 0.01
    pad_idx := 1
    num_seqs := 1 }

/-- The same module with the unsupported optimizer string "sgd". -/
def m_sgd : FactoredAttention 2 1 1 1 := { m0 with optimizer := "sgd" }

/-- The same module with optimizer string "lamb". -/
def m_lamb : FactoredAttention 2 1 1 1 := { m0 with optimizer := "lamb" }

/-- A one-sequence batch of zeros. -/
def srcA : List (Tokens 2) := [fun _ => 0]

/-- A one-sequence batch of ones (the pad token of `m0`). -/
def srcB : List (Tokens 2) := [fun _ => 1]

/-- A one-sequence target batch of zeros. -/
def tgtA : List (Tokens 2) := [fun _ => 0]

/-- All-zero constructor draws for the tiny module shape. -/
def draws0 : InitDraws 2 1 1 1 :=
  { query0 := fun _ _ _ => 0
    key0 := fun _ _ _ => 0
    value0 := fun _ _ => 0
    output0 := fun _ _ => 0 }

/-! ## Helper lemmas -/

theorem sum_exp_pos {n : ℕ} (x : Fin n → ℝ) (i : Fin n) :
    0 < ∑ k, Real.exp (x k) :=
  Finset.sum_pos (fun _ _ => Real.exp_pos _) ⟨i, Finset.mem_univ i⟩

theorem softmax_sum_one {n : ℕ} (x : Fin n → ℝ) (i : Fin n) :
    ∑ j, softmax x j = 1 := by
  unfold softmax
  rw [← Finset.sum_div]
  exact div_self (ne_of_gt (sum_exp_pos x i))

theorem init_false_eq {L H D V : ℕ} (draws : InitDraws L H D V) (ns : ℕ)
    (counts : List (List ℝ)) (opt : String) (lr l2 : ℝ) (pad : ℕ)
    (hpad : pad < V + 1) :
    FactoredAttention.init L H D V draws ns counts opt lr l2 false pad =
      Except.ok (initBase draws ns opt lr l2 pad) := by
  unfold FactoredAttention.init
  rw [if_pos hpad]
  rfl

theorem ceSum_append {pad V L : ℕ} (l1 l2 : List (Fin L → Fin V → ℝ))
    (t1 t2 : List (Tokens L)) (h : l1.length = t1.length) :
    ceSum pad V (l1 ++ l2) (t1 ++ t2) = ceSum pad V l1 t1 + ceSum pad V l2 t2 := by
  unfold ceSum
  rw [List.zip_append h, List.map_append, List.sum_append]

/-! ## The claims -/

/-- Claim C1: for any two embeddable batches of the same shape, `forward`
succeeds on both and returns the same attention tensor: attention is built
from the query and key parameters and the diagonal mask only, never from the
token content. -/
theorem attention_content_independent {L H D V : ℕ} (m : FactoredAttention L H D V)
    (t1 t2 : List (Tokens L)) (h1 : validBatch V t1) (h2 : validBatch V t2)
    (hlen : t1.length = t2.length) :
    ∃ o1 o2, forward m t1 none = Except.ok o1 ∧ forward m t2 none = Except.ok o2 ∧
      o1.attention = o2.attention := by
  refine ⟨⟨none, t1.pmap (fun s hs => seqLogits m s hs) h1, attn m⟩,
    ⟨none, t2.pmap (fun s hs => seqLogits m s hs) h2, attn m⟩, ?_, ?_, rfl⟩ <;>
    simp [forward, h1, h2]

/-- Witness for C1 at two concrete one-sequence batches with different
tokens. -/
theorem attention_content_independent_witness :
    ∃ o1 o2, forward m0 srcA none = Except.ok o1 ∧
      forward m0 srcB none = Except.ok o2 ∧ o1.attention = o2.attention :=
  attention_content_independent m0 srcA srcB (by decide) (by decide) rfl

/-- Claim C3: `get_contacts` succeeds (its all-pad dummy sequence is
embeddable) and the returned `L × L` matrix is exactly symmetric. -/
theorem get_contacts_symmetric {L H D V : ℕ} (m : FactoredAttention L H D V)
    (hpad : m.pad_idx < V + 1) :
    ∃ C, get_contacts m = Except.ok C ∧ ∀ i j, C i j = C j i := by
  have hv : validBatch V ([fun _ => m.pad_idx] : List (Tokens L)) := by
    intro s hs i
    rw [List.mem_singleton.mp hs]
    exact hpad
  refine ⟨symmetrize_matrix (fun i j => (∑ h, attn m h i j) / (H : ℝ)), ?_, ?_⟩
  · simp [get_contacts, forward, hv, Except.map]
  · intro i j
    simp only [symmetrize_matrix]
    ring

/-- Witness for C3 at the concrete module. -/
theorem get_contacts_symmetric_witness :
    ∃ C, get_contacts m0 = Except.ok C ∧ ∀ i j, C i j = C j i :=
  get_contacts_symmetric m0 (by decide)

/-- Claim C8: `get_contacts` takes no targets argument; in state-passing form
it returns the module state unchanged, and its result is the symmetrized
head-average of the attention tensor obtained from a forward pass with
`targets = none`. -/
theorem get_contacts_pure {L H D V : ℕ} (m : FactoredAttention L H D V) :
    (get_contactsS m).2 = m ∧
    (get_contactsS m).1 = (forward m [fun _ => m.pad_idx] none).map
      (fun out => symmetrize_matrix (fun i j => (∑ h, out.attention h i j) / (H : ℝ))) :=
  ⟨rfl, rfl⟩

/-- Claim C10: with `use_bias = false` the constructor ignores `msa_counts`
entirely (the result is the same for any two counts tables, of any shapes) and,
whenever the pad index passes the `nn.Embedding` range assertion, always
succeeds: the shape-mismatch failure can only occur with `use_bias = true`. -/
theorem no_bias_ignores_counts {L H D V : ℕ} (draws : InitDraws L H D V) (ns : ℕ)
    (opt : String) (lr l2 : ℝ) (pad : ℕ) (hpad : pad < V + 1)
    (c1 c2 : List (List ℝ)) :
    FactoredAttention.init L H D V draws ns c1 opt lr l2 false pad =
      FactoredAttention.init L H D V draws ns c2 opt lr l2 false pad ∧
    ∃ m2, FactoredAttention.init L H D V draws ns c1 opt lr l2 false pad =
      Except.ok m2 := by
  constructor
  · rfl
  · exact ⟨_, init_false_eq draws ns c1 opt lr l2 pad hpad⟩

/-- Witness for C10 at concrete inputs, with two counts tables of different
shapes (one of them not even rectangular for the model's dimensions). -/
theorem no_bias_ignores_counts_witness :
    FactoredAttention.init 2 1 1 1 draws0 1 [] "adam" 0 0 false 1 =
      FactoredAttention.init 2 1 1 1 draws0 1 [[1], [1, 2, 3]] "adam" 0 0 false 1 ∧
    ∃ m2, FactoredAttention.init 2 1 1 1 draws0 1 [] "adam" 0 0 false 1 =
      Except.ok m2 :=
  no_bias_ignores_counts draws0 1 "adam" 0 0 1 (by decide) [] [[1], [1, 2, 3]]

/-- Claim C2: with targets supplied, `forward` returns as loss the summed
cross-entropy over the batch divided by the number of sequences in the batch;
the summand of a position whose target is the pad index is `0`, and the
summand of any other position is the cross-entropy of its logit row at the
target class. -/
theorem forward_loss_formula {L H D V : ℕ} (m : FactoredAttention L H D V)
    (src tgt : List (Tokens L)) (h1 : validBatch V src)
    (hlen : tgt.length = src.length) (h2 : validTargets m.pad_idx V tgt) :
    ∃ o, forward m src (some tgt) = Except.ok o ∧
      o.loss = some (ceSum m.pad_idx V o.logits tgt / (src.length : ℝ)) ∧
      (∀ (l : Fin V → ℝ) (t : ℕ), t = m.pad_idx → ceTerm m.pad_idx V l t = 0) ∧
      (∀ (l : Fin V → ℝ) (t : ℕ) (ht : t < V), t ≠ m.pad_idx →
        ceTerm m.pad_idx V l t = crossEntropy l ⟨t, ht⟩) := by
  refine ⟨⟨some (ceSum m.pad_idx V (src.pmap (fun s hs => seqLogits m s hs) h1) tgt /
      (src.length : ℝ)), src.pmap (fun s hs => seqLogits m s hs) h1, attn m⟩,
    ?_, rfl, ?_, ?_⟩
  · simp [forward, h1, hlen, h2]
  · intro l t ht
    simp [ceTerm, ht]
  · intro l t ht hne
    simp [ceTerm, crossEntropy, hne, ht]

/-- Witness for C2 at a concrete batch and target. -/
theorem forward_loss_formula_witness :
    ∃ o, forward m0 srcA (some tgtA) = Except.ok o ∧
      o.loss = some (ceSum m0.pad_idx 1 o.logits tgtA / (srcA.length : ℝ)) ∧
      (∀ (l : Fin 1 → ℝ) (t : ℕ), t = m0.pad_idx → ceTerm m0.pad_idx 1 l t = 0) ∧
      (∀ (l : Fin 1 → ℝ) (t : ℕ) (ht : t < 1), t ≠ m0.pad_idx →
        ceTerm m0.pad_idx 1 l t = crossEntropy l ⟨t, ht⟩) :=
  forward_loss_formula m0 srcA tgtA (by decide) rfl (by decide)

/-- Claim C4: every attention row sums to exactly `1`, and whenever all scaled
query-key scores lie in `[-B, B]`, the masked diagonal entry is at most
`exp (2 * B - 10000)` — driven to approximately zero by the `-10000` diagonal
mask. -/
theorem attn_row_sum_one_diag_masked {L H D V : ℕ} (m : FactoredAttention L H D V)
    (hmask : m.diag_mask = mkDiagMask L) (h : Fin H) (i j : Fin L) (hij : j ≠ i)
    (B : ℝ) (hB : ∀ h2 i2 j2, |scaledAttn m h2 i2 j2| ≤ B) :
    (∑ k, attn m h i k = 1) ∧ attn m h i i ≤ Real.exp (2 * B - 10000) := by
  constructor
  · exact softmax_sum_one _ i
  · have hterm : Real.exp (maskedAttn m h i j) ≤ ∑ k, Real.exp (maskedAttn m h i k) :=
      Finset.single_le_sum (fun k _ => le_of_lt (Real.exp_pos _)) (Finset.mem_univ j)
    have hattn : attn m h i i =
        Real.exp (maskedAttn m h i i) / ∑ k, Real.exp (maskedAttn m h i k) := rfl
    have hmaskii : maskedAttn m h i i = scaledAttn m h i i + (-10000) := by
      simp [maskedAttn, hmask, mkDiagMask]
    have hmaskij : maskedAttn m h i j = scaledAttn m h i j := by
      simp [maskedAttn, hmask, mkDiagMask, Ne.symm hij]
    calc attn m h i i
        ≤ Real.exp (maskedAttn m h i i) / Real.exp (maskedAttn m h i j) := by
          rw [hattn]
          exact div_le_div_of_nonneg_left (le_of_lt (Real.exp_pos _))
            (Real.exp_pos _) hterm
      _ = Real.exp (maskedAttn m h i i - maskedAttn m h i j) := (Real.exp_sub _ _).symm
      _ ≤ Real.exp (2 * B - 10000) := by
          apply Real.exp_le_exp.mpr
          have hii := hB h i i
          have hij2 := hB h i j
          rw [abs_le] at hii hij2
          rw [hmaskii, hmaskij]
          linarith

/-- Witness for C4 at the all-zero module, where every scaled score is `0`. -/
theorem attn_row_sum_one_diag_masked_witness :
    (∑ k, attn m0 0 0 k = 1) ∧ attn m0 0 0 0 ≤ Real.exp (2 * 0 - 10000) :=
  attn_row_sum_one_diag_masked m0 rfl 0 0 1 (by decide) 0
    (fun h2 i2 j2 => by simp [scaledAttn, rawAttn, m0])

/-- Claim C5: `configure_optimizers` fails with the `ValueError` message for
any optimizer string other than "adam" and "lamb", and for those two returns a
one-element list whose optimizer carries the model's learning rate and L2
coefficient. -/
theorem configure_optimizers_dispatch {L H D V : ℕ} (m : FactoredAttention L H D V) :
    (m.optimizer ≠ "adam" → m.optimizer ≠ "lamb" →
      configure_optimizers m = Except.error ("Unrecognized optimizer " ++ m.optimizer)) ∧
    (m.optimizer = "adam" →
      configure_optimizers m = Except.ok [Optimizer.adamW m.learning_rate m.l2_coeff]) ∧
    (m.optimizer = "lamb" →
      configure_optimizers m = Except.ok [Optimizer.fusedLAMB m.learning_rate m.l2_coeff]) := by
  refine ⟨fun hna hnl => ?_, fun ha => ?_, fun hl => ?_⟩ <;>
    simp [configure_optimizers, *]

/-- Witness for C5: "sgd" is rejected, "adam" and "lamb" are accepted. -/
theorem configure_optimizers_dispatch_witness :
    configure_optimizers m_sgd = Except.error ("Unrecognized optimizer " ++ "sgd") ∧
    configure_optimizers m0 = Except.ok [Optimizer.adamW m0.learning_rate m0.l2_coeff] ∧
    configure_optimizers m_lamb =
      Except.ok [Optimizer.fusedLAMB m_lamb.learning_rate m_lamb.l2_coeff] :=
  ⟨(configure_optimizers_dispatch m_sgd).1 (by decide) (by decide),
   (configure_optimizers_dispatch m0).2.1 rfl,
   (configure_optimizers_dispatch m_lamb).2.2 rfl⟩

/-- Claim C6 (code evaluated at the failing input): parsing with neither
`--use_bias` nor `--no_bias` resolves defaults in registration order, so the
`store_true` action's implicit default `False` claims the `use_bias`
destination first and the namespace ends up with `use_bias = false`, not
`true`.  All remaining documented defaults hold as stated. -/
theorem add_args_defaults :
    lookupDest (parseDefaults add_args) "learning_rate" =
      some (ArgDefault.floatD 0.001) ∧
    lookupDest (parseDefaults add_args) "l2_coeff" = some (ArgDefault.floatD 0.01) ∧
    lookupDest (parseDefaults add_args) "num_attention_heads" =
      some (ArgDefault.natD 32) ∧
    lookupDest (parseDefaults add_args) "attention_head_size" =
      some (ArgDefault.natD 16) ∧
    lookupDest (parseDefaults add_args) "optimizer" = some (ArgDefault.strD "adam") ∧
    (add_args.find? (fun a => a.dest = "optimizer")).map (fun a => a.choices) =
      some (some ["adam", "lamb"]) ∧
    lookupDest (parseDefaults add_args) "use_bias" = some (ArgDefault.boolD false) :=
  ⟨rfl, rfl, rfl, rfl, rfl, rfl, rfl⟩

/-- Claim C7: duplicating the batch (and its targets) leaves the returned loss
unchanged: the summed cross-entropy doubles and so does the batch size. -/
theorem loss_batch_duplication_invariant {L H D V : ℕ} (m : FactoredAttention L H D V)
    (src tgt : List (Tokens L)) (h1 : validBatch V src)
    (hlen : tgt.length = src.length) (h2 : validTargets m.pad_idx V tgt) :
    ∃ o o2, forward m src (some tgt) = Except.ok o ∧
      forward m (src ++ src) (some (tgt ++ tgt)) = Except.ok o2 ∧
      o2.loss = o.loss := by
  have h1' : validBatch V (src ++ src) := by
    intro s hs
    rcases List.mem_append.mp hs with h | h
    exacts [h1 s h, h1 s h]
  have h2' : validTargets m.pad_idx V (tgt ++ tgt) := by
    intro t ht
    rcases List.mem_append.mp ht with h | h
    exacts [h2 t h, h2 t h]
  have hlen' : (tgt ++ tgt).length = (src ++ src).length := by
    simp [hlen]
  refine ⟨⟨some (ceSum m.pad_idx V (src.pmap (fun s hs => seqLogits m s hs) h1) tgt /
      (src.length : ℝ)), src.pmap (fun s hs => seqLogits m s hs) h1, attn m⟩,
    ⟨some (ceSum m.pad_idx V ((src ++ src).pmap (fun s hs => seqLogits m s hs) h1')
        (tgt ++ tgt) / ((src ++ src).length : ℝ)),
      (src ++ src).pmap (fun s hs => seqLogits m s hs) h1', attn m⟩, ?_, ?_, ?_⟩
  · simp [forward, h1, hlen, h2]
  · simp [forward, h1', hlen', h2']
  · simp only [Option.some.injEq]
    have hsplit : (src ++ src).pmap (fun s hs => seqLogits m s hs) h1' =
        src.pmap (fun s hs => seqLogits m s hs) h1 ++
          src.pmap (fun s hs => seqLogits m s hs) h1 := by
      rw [List.pmap_append]
    rw [hsplit]
    rw [ceSum_append _ _ _ _ (by rw [List.length_pmap]; exact hlen.symm)]
    rw [List.length_append]
    push_cast
    rw [show ceSum m.pad_idx V (src.pmap (fun s hs => seqLogits m s hs) h1) tgt +
        ceSum m.pad_idx V (src.pmap (fun s hs => seqLogits m s hs) h1) tgt =
        2 * ceSum m.pad_idx V (src.pmap (fun s hs => seqLogits m s hs) h1) tgt by ring,
      show (src.length : ℝ) + (src.length : ℝ) = 2 * (src.length : ℝ) by ring]
    exact mul_div_mul_left _ _ two_ne_zero

/-- Witness for C7 at a concrete batch and target. -/
theorem loss_batch_duplication_invariant_witness :
    ∃ o o2, forward m0 srcA (some tgtA) = Except.ok o ∧
      forward m0 (srcA ++ srcA) (some (tgtA ++ tgtA)) = Except.ok o2 ∧
      o2.loss = o.loss :=
  loss_batch_duplication_invariant m0 srcA tgtA (by decide) rfl (by decide)

/-- Claim C9: every batch whose tokens lie in `[0, V]` is embeddable
(the table has `V + 1` rows), so `forward` succeeds; and the constructor
zeroes the `padding_idx` row of the value-embedding table whenever the pad
index is a documented token value. -/
theorem embedding_in_range {L H D V : ℕ} (m : FactoredAttention L H D V)
    (src : List (Tokens L)) (hsrc : ∀ s ∈ src, ∀ i, s i ≤ V)
    (draws : InitDraws L H D V) (ns : ℕ) (counts : List (List ℝ)) (opt : String)
    (lr l2 : ℝ) (pad : ℕ) (hpad : pad ≤ V) :
    (∃ o, forward m src none = Except.ok o) ∧
    (∃ m2, FactoredAttention.init L H D V draws ns counts opt lr l2 false pad =
        Except.ok m2 ∧ ∀ k, m2.value ⟨pad, Nat.lt_succ_of_le hpad⟩ k = 0) := by
  constructor
  · have hv : validBatch V src := fun s hs i => Nat.lt_succ_of_le (hsrc s hs i)
    exact ⟨⟨none, src.pmap (fun s hs => seqLogits m s hs) hv, attn m⟩,
      by simp [forward, hv]⟩
  · refine ⟨initBase draws ns opt lr l2 pad,
      init_false_eq draws ns counts opt lr l2 pad (Nat.lt_succ_of_le hpad),
      fun k => ?_⟩
    simp [initBase]

/-- Witness for C9 at the concrete module and constructor inputs. -/
theorem embedding_in_range_witness :
    (∃ o, forward m0 srcA none = Except.ok o) ∧
    (∃ m2, FactoredAttention.init 2 1 1 1 draws0 1 [] "adam" 0 0 false 1 =
        Except.ok m2 ∧ ∀ k, m2.value ⟨1, Nat.lt_succ_of_le (by decide)⟩ k = 0) :=
  embedding_in_range m0 srcA (by decide) draws0 1 [] "adam" 0 0 1 (by decide)

end

end Mogwai
